import Mathlib

/-
Verification development for st_theresa_medical_center.js: a shallow
embedding of the AjaxHandler retry wrapper, the UIHelper DOM utilities and
the GlobalEvents form binder, together with theorems about the retry,
validation, callback and DOM behaviour of the script.
-/

set_option autoImplicit false

/-- JavaScript runtime values as far as the script inspects them: the JSON
response body handed to the then-handler and the fields read off it. -/
inductive JsVal where
  | undefined
  | null
  | bool (b : Bool)
  | num (n : Int)
  | str (s : String)
  | obj (fields : List (String × JsVal))

/-- The JavaScript typeof operator restricted to the values of JsVal.
Note typeof null is the string object, as in JavaScript. -/
def jsTypeof : JsVal → String
  | .undefined => "undefined"
  | .null => "object"
  | .bool _ => "boolean"
  | .num _ => "number"
  | .str _ => "string"
  | .obj _ => "object"

/-- Property read on an object value: the first field with the given name,
or undefined when the field is absent. Reads on primitives also yield
undefined; the script only performs reads on values whose typeof is object
(the null case, which throws, is handled separately in validateEnvelope). -/
def fieldVal : JsVal → String → JsVal
  | .obj fields, k =>
    match fields.find? (fun p => p.1 == k) with
    | some p => p.2
    | none => .undefined
  | _, _ => .undefined

/-- JavaScript truthiness of a value, used by the binder branches such as
if resposne success and the message fallback. -/
def truthy : JsVal → Bool
  | .undefined => false
  | .null => false
  | .bool b => b
  | .num n => n != 0
  | .str s => s != ""
  | .obj _ => true

/-- String rendering of a value when it is interpolated into the toast
template or written with the html setter. -/
def jsDisplayString : JsVal → String
  | .undefined => "undefined"
  | .null => "null"
  | .bool b => if b then "true" else "false"
  | .num n => toString n
  | .str s => s
  | .obj _ => "[object Object]"

/-- Outcome of the response-shape check in the then-handler of
AjaxHandler.request (source line 92):
typeof response !== object || response.success === undefined.
A non-object body short-circuits to malformed; a null body passes the
typeof test and then the read of success on null throws a TypeError;
an object body is malformed exactly when its success field is undefined. -/
inductive ValidationResult where
  | malformed
  | throws
  | ok
deriving DecidableEq

/-- The response-envelope validation of AjaxHandler.request line 92,
classifying the parsed body. -/
def validateEnvelope (response : JsVal) : ValidationResult :=
  if jsTypeof response != "object" then .malformed
  else
    match response with
    | .null => .throws
    | resp =>
      match fieldVal resp "success" with
      | .undefined => .malformed
      | _ => .ok

/-- What one underlying jQuery ajax exchange does on a given attempt:
either the transport itself rejects (network error) or it resolves with a
parsed JSON body. -/
inductive TransportResult where
  | network
  | body (response : JsVal)

/-- Classification of a rejected attempt: a transport rejection, the
explicit invalid json rejection built on line 95, or the TypeError thrown
by reading success on a null body. -/
inductive RejectReason where
  | network
  | invalidJson
  | typeError
deriving DecidableEq

/-- One attempt of the request seen end to end: the transport exchange
followed by the envelope validation of the then-handler. The catch handler
on line 100 receives every error case of this classification identically. -/
def attemptResult (transport : Nat → TransportResult) (attempt : Nat) :
    Except RejectReason JsVal :=
  match transport attempt with
  | .network => .error .network
  | .body response =>
    match validateEnvelope response with
    | .ok => .ok response
    | .malformed => .error .invalidJson
    | .throws => .error .typeError

/-- How the payload travels: GET passes it as query parameters, any other
method sends it JSON stringified in the body (source line 85). -/
inductive RequestData where
  | query (d : List (String × String))
  | jsonBody (d : List (String × String))

/-- The settings object handed to the jQuery ajax call on lines 82 to 89. -/
structure AjaxSettings where
  url : String
  type : String
  data : RequestData
  contentType : String
  csrfHeader : String
  dataType : String

/-- Observable events of one AjaxHandler.request call, in order: each
underlying transport invocation with the settings it was given, each
invocation of the per-call success and error callbacks, each inter-attempt
wait, and the invocation of the per-call finalizer. Debug console output is
not traced. -/
inductive Event where
  | transportCall (attempt : Nat) (settings : AjaxSettings)
  | successCb (response : JsVal)
  | errorCb (reason : RejectReason)
  | delayWait (ms : Nat)
  | finallyCb

/-- The per-call options object of request: optional retry and delay
overrides, and the presence of the success, error and finalizer callbacks
(a Bool models the truthiness tests if options success and so on). -/
structure RequestOptions where
  retries : Option Nat := none
  delay : Option Nat := none
  success : Bool := false
  error : Bool := false
  finallyCb : Bool := false

/-- Final state of the promise returned by request. -/
inductive Outcome where
  | resolved (response : JsVal)
  | rejected (reason : RejectReason)

/-- Constructor options of AjaxHandler (lines 20 to 25); a missing field is
undefined, so the nullish coalescing defaults apply. -/
structure AjaxHandlerOptions where
  debug : Option Bool := none
  defaultRetries : Option Nat := none
  defaultDelay : Option Nat := none

/-- The AjaxHandler instance state set up by the constructor. -/
structure AjaxHandler where
  debug : Bool
  defaultRetries : Nat
  defaultDelay : Nat
  csrfToken : String

/-- Split a character list at every occurrence of the separator, as the
JavaScript split method does: the empty input yields one empty piece. -/
def splitOnChar (sep : Char) : List Char → List (List Char)
  | [] => [[]]
  | c :: cs =>
    match splitOnChar sep cs with
    | [] => if c = sep then [[], []] else [[c]]
    | piece :: rest =>
      if c = sep then [] :: piece :: rest
      else (c :: piece) :: rest

/-- JavaScript trim: remove whitespace from both ends. -/
def jsTrim (l : List Char) : List Char :=
  ((l.dropWhile Char.isWhitespace).reverse.dropWhile Char.isWhitespace).reverse

/-- Whether the first list is an initial segment of the second, matching
the indexOf name equals zero test of line 37. -/
def listStartsWith : List Char → List Char → Bool
  | [], _ => true
  | _ :: _, [] => false
  | p :: ps, c :: cs => p = c && listStartsWith ps cs

/-- AjaxHandler.getCsrfToken (lines 31 to 40): split the decoded cookie
string on semicolons, trim each piece, return the remainder of the first
piece that starts with the text csrftoken equals, or the empty string when
none does. The argument is the document cookie string after the
decodeURIComponent of line 33. -/
def AjaxHandler.getCsrfToken (decodedCookie : String) : String :=
  let name := "csrftoken=".toList
  let cookies := splitOnChar ';' decodedCookie.toList
  match cookies.find? (fun c => listStartsWith name (jsTrim c)) with
  | some c => String.mk ((jsTrim c).drop name.length)
  | none => ""

/-- The AjaxHandler constructor (lines 20 to 25): debug defaults to false,
defaultRetries to 3, defaultDelay to 500, and the csrf token is read from
the cookie store once, at construction. -/
def AjaxHandler.create (options : AjaxHandlerOptions) (decodedCookie : String) :
    AjaxHandler :=
  { debug := options.debug.getD false
    defaultRetries := options.defaultRetries.getD 3
    defaultDelay := options.defaultDelay.getD 500
    csrfToken := AjaxHandler.getCsrfToken decodedCookie }

/-- The settings object built for the jQuery ajax call of lines 82 to 89:
the csrf header always carries the token stored on the instance. -/
def ajaxSettings (handler : AjaxHandler) (method url : String)
    (data : List (String × String)) : AjaxSettings :=
  { url := url
    type := method
    data := if method = "GET" then .query data else .jsonBody data
    contentType := "application/json"
    csrfHeader := handler.csrfToken
    dataType := "json" }

/-- The recursive makeRequest closure of lines 78 to 110, producing the
event trace and the final promise state. The attempt argument is the value
of the attempt counter before the increment on line 79, so the first call
receives zero. On a validated body the success callback runs and the
promise resolves; on any failure, if attempt < retries after the increment
the loop waits delay milliseconds and re-enters itself, otherwise the error
callback runs and the promise rejects with the terminal error. -/
def AjaxHandler.makeRequest (handler : AjaxHandler) (method url : String)
    (data : List (String × String)) (options : RequestOptions)
    (transport : Nat → TransportResult) (retries delay attempt : Nat) :
    List Event × Outcome :=
  match attemptResult transport (attempt + 1) with
  | .ok response =>
    (Event.transportCall (attempt + 1) (ajaxSettings handler method url data) ::
        (if options.success then [Event.successCb response] else []),
      .resolved response)
  | .error reason =>
    if _h : attempt + 1 < retries then
      let rest :=
        AjaxHandler.makeRequest handler method url data options transport
          retries delay (attempt + 1)
      (Event.transportCall (attempt + 1) (ajaxSettings handler method url data) ::
          Event.delayWait delay :: rest.1,
        rest.2)
    else
      (Event.transportCall (attempt + 1) (ajaxSettings handler method url data) ::
          (if options.error then [Event.errorCb reason] else []),
        .rejected reason)
termination_by retries - attempt
decreasing_by omega

/-- AjaxHandler.request (lines 73 to 115): resolve the retry and delay
configuration with the nullish coalescing defaults, run the retry loop from
attempt zero, and attach the finalizer, which runs exactly once after the
loop settles and preserves the outcome. -/
def AjaxHandler.request (handler : AjaxHandler) (method url : String)
    (data : List (String × String)) (options : RequestOptions)
    (transport : Nat → TransportResult) : List Event × Outcome :=
  let retries := options.retries.getD handler.defaultRetries
  let delay := options.delay.getD handler.defaultDelay
  let core :=
    AjaxHandler.makeRequest handler method url data options transport
      retries delay 0
  (core.1 ++ (if options.finallyCb then [Event.finallyCb] else []), core.2)

/-- AjaxHandler.get (lines 49 to 51). -/
def AjaxHandler.get (handler : AjaxHandler) (url : String)
    (data : List (String × String)) (options : RequestOptions)
    (transport : Nat → TransportResult) : List Event × Outcome :=
  handler.request "GET" url data options transport

/-- AjaxHandler.post (lines 60 to 62). -/
def AjaxHandler.post (handler : AjaxHandler) (url : String)
    (data : List (String × String)) (options : RequestOptions)
    (transport : Nat → TransportResult) : List Event × Outcome :=
  handler.request "POST" url data options transport

/-- Recognizer for transport invocation events. -/
def Event.isTransportCall : Event → Bool
  | .transportCall _ _ => true
  | _ => false

/-- Recognizer for success callback events. -/
def Event.isSuccessCb : Event → Bool
  | .successCb _ => true
  | _ => false

/-- Recognizer for finalizer events. -/
def Event.isFinallyCb : Event → Bool
  | .finallyCb => true
  | _ => false

/-- Number of transport invocations in a trace. -/
def transportCount (evts : List Event) : Nat :=
  evts.countP Event.isTransportCall

/-- Number of success callback invocations in a trace. -/
def successCbCount (evts : List Event) : Nat :=
  evts.countP Event.isSuccessCb

/-- Number of finalizer invocations in a trace. -/
def finallyCbCount (evts : List Event) : Nat :=
  evts.countP Event.isFinallyCb

/-- The slice of the page the script touches for one POST trigger: the
number of toast container elements in the document, the list of toasts
appended to the container so far (body text and colour class), the inner
html of the declared target region, whether the target carries the loading
class, and whether the submit button carries the disabled attribute. -/
structure PageState where
  containers : Nat
  toasts : List (String × String)
  targetHtml : String
  targetLoading : Bool
  submitDisabled : Bool
deriving DecidableEq

/-- UIHelper.showLoading (lines 119 to 121): adding the loading class is
idempotent, so the marker is simply set. -/
def UIHelper.showLoading (st : PageState) : PageState :=
  { st with targetLoading := true }

/-- UIHelper.hideLoading (lines 123 to 125). -/
def UIHelper.hideLoading (st : PageState) : PageState :=
  { st with targetLoading := false }

/-- The colors lookup object of UIHelper.toast (line 128). -/
def toastColors : List (String × String) :=
  [("info", "bg-info"), ("success", "bg-success"), ("warning", "bg-warning"),
    ("error", "bg-danger")]

/-- UIHelper.toast (lines 127 to 140): build a toast element whose colour
class is the colors entry for the given type, falling back to the info
colour for unrecognized types, and append it to the element selected by
the toast container id. When no container element exists the jQuery append
on an empty selection is a no-op: the toast is attached nowhere and the
page is unchanged. The bootstrap show call is purely visual and not
modelled. -/
def UIHelper.toast (message : String) (type : String) (st : PageState) :
    PageState :=
  let color := ((toastColors.find? (fun p => p.1 == type)).map (fun p => p.2)).getD "bg-info"
  if st.containers = 0 then st
  else { st with toasts := st.toasts ++ [(message, color)] }

/-- Assignment data item name equals item value on a JavaScript object
(line 145): overwrite the value when the key is already present, otherwise
add the pair at the end. -/
def jsObjectSet (data : List (String × String)) (name value : String) :
    List (String × String) :=
  if data.any (fun p => p.1 == name) then
    data.map (fun p => if p.1 == name then (p.1, value) else p)
  else
    data ++ [(name, value)]

/-- UIHelper.serializeForm (lines 142 to 147): fold the serialized form
array into a flat object, assigning each entry in order, so later
duplicate names overwrite earlier ones. The argument is the name and value
list produced by the jQuery serializeArray call. -/
def UIHelper.serializeForm (formArray : List (String × String)) :
    List (String × String) :=
  formArray.foldl (fun data item => jsObjectSet data item.1 item.2) []

/-- Property read on the flat object produced by serializeForm. -/
def objGet (data : List (String × String)) (name : String) : Option String :=
  (data.find? (fun p => p.1 == name)).map (fun p => p.2)

/-- UIHelper.disableButton (lines 149 to 151), applied to the form submit
button tracked in PageState. -/
def UIHelper.disableButton (st : PageState) : PageState :=
  { st with submitDisabled := true }

/-- UIHelper.enableButton (lines 153 to 155). -/
def UIHelper.enableButton (st : PageState) : PageState :=
  { st with submitDisabled := false }

/-- The document ready handler fragment of lines 221 to 223: append one
toast container to the body if and only if none exists yet. -/
def readyToastContainerInit (st : PageState) : PageState :=
  if st.containers = 0 then { st with containers := 1 } else st

/-- The success callback the POST binder passes to ajax.post (lines 200 to
207): on a truthy success flag, write the html field to the target when
truthy and toast the message as success when truthy; otherwise toast the
message, or the fallback text, as an error. -/
def postSuccessCallback (res : JsVal) (st : PageState) : PageState :=
  if truthy (fieldVal res "success") then
    let st1 :=
      if truthy (fieldVal res "html") then
        { st with targetHtml := jsDisplayString (fieldVal res "html") }
      else st
    if truthy (fieldVal res "message") then
      UIHelper.toast (jsDisplayString (fieldVal res "message")) "success" st1
    else st1
  else
    UIHelper.toast
      (jsDisplayString
        (if truthy (fieldVal res "message") then fieldVal res "message"
         else JsVal.str "Submission failed"))
      "error" st

/-- The error callback the POST binder passes to ajax.post (line 208). -/
def postErrorCallback (st : PageState) : PageState :=
  UIHelper.toast "Submission failed" "error" st

/-- The finalizer the POST binder passes to ajax.post (lines 209 to 212). -/
def postFinallyCallback (st : PageState) : PageState :=
  UIHelper.enableButton (UIHelper.hideLoading st)

/-- Interpretation of one traced request event by the POST binder
callbacks; transport invocations and waits do not touch the page. -/
def applyPostEvent (st : PageState) : Event → PageState
  | .successCb res => postSuccessCallback res st
  | .errorCb _ => postErrorCallback st
  | .finallyCb => postFinallyCallback st
  | _ => st

/-- The options object the POST binder passes to ajax.post: no retry or
delay overrides, and all three callbacks present. -/
def postOptions : RequestOptions :=
  { retries := none, delay := none, success := true, error := true,
    finallyCb := true }

/-- The submit handler bound by GlobalEvents.bindEvents for forms marked
for AJAX POST (lines 189 to 214): serialize the form, show loading,
disable the submit button, issue the POST, and let the callbacks traced by
the request update the page in order. -/
def postSubmitHandler (ajax : AjaxHandler) (url : String)
    (formArray : List (String × String)) (transport : Nat → TransportResult)
    (st : PageState) : PageState :=
  let data := UIHelper.serializeForm formArray
  let st1 := UIHelper.disableButton (UIHelper.showLoading st)
  (ajax.post url data postOptions transport).1.foldl applyPostEvent st1

/-- An attempt that reaches the ok branch returns a response that passed
the envelope validation. -/
theorem attemptResult_ok_validate {transport : Nat → TransportResult} {a : Nat}
    {r : JsVal} (h : attemptResult transport a = Except.ok r) :
    validateEnvelope r = ValidationResult.ok := by
  unfold attemptResult at h
  split at h
  · simp at h
  · split at h
    · rename_i hv
      cases h
      exact hv
    · simp at h
    · simp at h

/-- Unfolding equation of the loop on a validated attempt. -/
theorem makeRequest_eq_ok (handler : AjaxHandler) (method url : String)
    (data : List (String × String)) (options : RequestOptions)
    (transport : Nat → TransportResult) (retries delay attempt : Nat)
    (response : JsVal)
    (hE : attemptResult transport (attempt + 1) = Except.ok response) :
    AjaxHandler.makeRequest handler method url data options transport retries
        delay attempt =
      (Event.transportCall (attempt + 1) (ajaxSettings handler method url data) ::
          (if options.success then [Event.successCb response] else []),
        Outcome.resolved response) := by
  rw [AjaxHandler.makeRequest, hE]

/-- Unfolding equation of the loop on a failed attempt that still has
retries left: wait, then re-enter. -/
theorem makeRequest_eq_retry (handler : AjaxHandler) (method url : String)
    (data : List (String × String)) (options : RequestOptions)
    (transport : Nat → TransportResult) (retries delay attempt : Nat)
    (reason : RejectReason)
    (hE : attemptResult transport (attempt + 1) = Except.error reason)
    (hr : attempt + 1 < retries) :
    AjaxHandler.makeRequest handler method url data options transport retries
        delay attempt =
      (Event.transportCall (attempt + 1) (ajaxSettings handler method url data) ::
          Event.delayWait delay ::
          (AjaxHandler.makeRequest handler method url data options transport
            retries delay (attempt + 1)).1,
        (AjaxHandler.makeRequest handler method url data options transport
          retries delay (attempt + 1)).2) := by
  rw [AjaxHandler.makeRequest, hE]
  dsimp only
  rw [dif_pos hr]

/-- Unfolding equation of the loop on a failed attempt with the retry
budget exhausted: run the error callback and reject terminally. -/
theorem makeRequest_eq_terminal (handler : AjaxHandler) (method url : String)
    (data : List (String × String)) (options : RequestOptions)
    (transport : Nat → TransportResult) (retries delay attempt : Nat)
    (reason : RejectReason)
    (hE : attemptResult transport (attempt + 1) = Except.error reason)
    (hr : ¬ attempt + 1 < retries) :
    AjaxHandler.makeRequest handler method url data options transport retries
        delay attempt =
      (Event.transportCall (attempt + 1) (ajaxSettings handler method url data) ::
          (if options.error then [Event.errorCb reason] else []),
        Outcome.rejected reason) := by
  rw [AjaxHandler.makeRequest, hE]
  dsimp only
  rw [dif_neg hr]

/-- Structural invariants of the retry loop trace, for an arbitrary
transport: every transport invocation carries the fixed settings object,
every inter-attempt wait equals the configured delay, the loop itself never
runs the finalizer, at least one transport invocation happens, the success
callback runs at most once, and whenever it runs the loop resolves with the
validated response it received. -/
theorem makeRequest_inv (handler : AjaxHandler) (method url : String)
    (data : List (String × String)) (options : RequestOptions)
    (transport : Nat → TransportResult) (retries delay : Nat) :
    ∀ (k attempt : Nat), retries - attempt ≤ k →
      (∀ a s, Event.transportCall a s ∈
          (AjaxHandler.makeRequest handler method url data options transport
            retries delay attempt).1 →
          s = ajaxSettings handler method url data) ∧
      (∀ d, Event.delayWait d ∈
          (AjaxHandler.makeRequest handler method url data options transport
            retries delay attempt).1 →
          d = delay) ∧
      Event.finallyCb ∉
        (AjaxHandler.makeRequest handler method url data options transport
          retries delay attempt).1 ∧
      1 ≤ transportCount
        (AjaxHandler.makeRequest handler method url data options transport
          retries delay attempt).1 ∧
      successCbCount
        (AjaxHandler.makeRequest handler method url data options transport
          retries delay attempt).1 ≤ 1 ∧
      (∀ r, Event.successCb r ∈
          (AjaxHandler.makeRequest handler method url data options transport
            retries delay attempt).1 →
          validateEnvelope r = ValidationResult.ok ∧
          (AjaxHandler.makeRequest handler method url data options transport
            retries delay attempt).2 = Outcome.resolved r) := by
  intro k
  induction k with
  | zero =>
    intro attempt hk
    cases hE : attemptResult transport (attempt + 1) with
    | ok response =>
      rw [makeRequest_eq_ok handler method url data options transport retries
        delay attempt response hE]
      refine ⟨?_, ?_, ?_, ?_, ?_, ?_⟩
      · intro a s hmem
        rcases List.mem_cons.mp hmem with h | h
        · simp only [Event.transportCall.injEq] at h
          exact h.2
        · cases hs : options.success <;> simp [hs] at h
      · intro d hmem
        rcases List.mem_cons.mp hmem with h | h
        · simp at h
        · cases hs : options.success <;> simp [hs] at h
      · intro hmem
        rcases List.mem_cons.mp hmem with h | h
        · simp at h
        · cases hs : options.success <;> simp [hs] at h
      · cases hs : options.success <;>
          simp [hs, transportCount, Event.isTransportCall, List.countP_cons]
      · cases hs : options.success <;>
          simp [hs, successCbCount, Event.isSuccessCb, List.countP_cons]
      · intro r hmem
        rcases List.mem_cons.mp hmem with h | h
        · simp at h
        · cases hs : options.success <;> simp [hs] at h
          subst h
          exact ⟨attemptResult_ok_validate hE, rfl⟩
    | error reason =>
      rw [makeRequest_eq_terminal handler method url data options transport
        retries delay attempt reason hE (by omega)]
      refine ⟨?_, ?_, ?_, ?_, ?_, ?_⟩
      · intro a s hmem
        rcases List.mem_cons.mp hmem with h | h
        · simp only [Event.transportCall.injEq] at h
          exact h.2
        · cases he : options.error <;> simp [he] at h
      · intro d hmem
        rcases List.mem_cons.mp hmem with h | h
        · simp at h
        · cases he : options.error <;> simp [he] at h
      · intro hmem
        rcases List.mem_cons.mp hmem with h | h
        · simp at h
        · cases he : options.error <;> simp [he] at h
      · cases he : options.error <;>
          simp [he, transportCount, Event.isTransportCall, List.countP_cons]
      · cases he : options.error <;>
          simp [he, successCbCount, Event.isSuccessCb, List.countP_cons]
      · intro r hmem
        rcases List.mem_cons.mp hmem with h | h
        · simp at h
        · cases he : options.error <;> simp [he] at h
  | succ k ih =>
    intro attempt hk
    cases hE : attemptResult transport (attempt + 1) with
    | ok response =>
      rw [makeRequest_eq_ok handler method url data options transport retries
        delay attempt response hE]
      refine ⟨?_, ?_, ?_, ?_, ?_, ?_⟩
      · intro a s hmem
        rcases List.mem_cons.mp hmem with h | h
        · simp only [Event.transportCall.injEq] at h
          exact h.2
        · cases hs : options.success <;> simp [hs] at h
      · intro d hmem
        rcases List.mem_cons.mp hmem with h | h
        · simp at h
        · cases hs : options.success <;> simp [hs] at h
      · intro hmem
        rcases List.mem_cons.mp hmem with h | h
        · simp at h
        · cases hs : options.success <;> simp [hs] at h
      · cases hs : options.success <;>
          simp [hs, transportCount, Event.isTransportCall, List.countP_cons]
      · cases hs : options.success <;>
          simp [hs, successCbCount, Event.isSuccessCb, List.countP_cons]
      · intro r hmem
        rcases List.mem_cons.mp hmem with h | h
        · simp at h
        · cases hs : options.success <;> simp [hs] at h
          subst h
          exact ⟨attemptResult_ok_validate hE, rfl⟩
    | error reason =>
      by_cases hr : attempt + 1 < retries
      · rw [makeRequest_eq_retry handler method url data options transport
          retries delay attempt reason hE hr]
        obtain ⟨ih1, ih2, ih3, ih4, ih5, ih6⟩ := ih (attempt + 1) (by omega)
        refine ⟨?_, ?_, ?_, ?_, ?_, ?_⟩
        · intro a s hmem
          rcases List.mem_cons.mp hmem with h | h
          · simp only [Event.transportCall.injEq] at h
            exact h.2
          · rcases List.mem_cons.mp h with h2 | h2
            · simp at h2
            · exact ih1 a s h2
        · intro d hmem
          rcases List.mem_cons.mp hmem with h | h
          · simp at h
          · rcases List.mem_cons.mp h with h2 | h2
            · simp only [Event.delayWait.injEq] at h2
              exact h2
            · exact ih2 d h2
        · intro hmem
          rcases List.mem_cons.mp hmem with h | h
          · simp at h
          · rcases List.mem_cons.mp h with h2 | h2
            · simp at h2
            · exact ih3 h2
        · simp [transportCount, Event.isTransportCall, List.countP_cons]
        · simpa [successCbCount, Event.isSuccessCb, List.countP_cons] using ih5
        · intro r hmem
          rcases List.mem_cons.mp hmem with h | h
          · simp at h
          · rcases List.mem_cons.mp h with h2 | h2
            · simp at h2
            · exact ih6 r h2
      · rw [makeRequest_eq_terminal handler method url data options transport
          retries delay attempt reason hE hr]
        refine ⟨?_, ?_, ?_, ?_, ?_, ?_⟩
        · intro a s hmem
          rcases List.mem_cons.mp hmem with h | h
          · simp only [Event.transportCall.injEq] at h
            exact h.2
          · cases he : options.error <;> simp [he] at h
        · intro d hmem
          rcases List.mem_cons.mp hmem with h | h
          · simp at h
          · cases he : options.error <;> simp [he] at h
        · intro hmem
          rcases List.mem_cons.mp hmem with h | h
          · simp at h
          · cases he : options.error <;> simp [he] at h
        · cases he : options.error <;>
            simp [he, transportCount, Event.isTransportCall, List.countP_cons]
        · cases he : options.error <;>
            simp [he, successCbCount, Event.isSuccessCb, List.countP_cons]
        · intro r hmem
          rcases List.mem_cons.mp hmem with h | h
          · simp at h
          · cases he : options.error <;> simp [he] at h

/-- Transport invocation count distributes over list append. -/
theorem transportCount_append (l₁ l₂ : List Event) :
    transportCount (l₁ ++ l₂) = transportCount l₁ + transportCount l₂ := by
  simp [transportCount, List.countP_append]

/-- Success callback count distributes over list append. -/
theorem successCbCount_append (l₁ l₂ : List Event) :
    successCbCount (l₁ ++ l₂) = successCbCount l₁ + successCbCount l₂ := by
  simp [successCbCount, List.countP_append]

/-- Finalizer count distributes over list append. -/
theorem finallyCbCount_append (l₁ l₂ : List Event) :
    finallyCbCount (l₁ ++ l₂) = finallyCbCount l₁ + finallyCbCount l₂ := by
  simp [finallyCbCount, List.countP_append]

/-- A trace without the finalizer event has finalizer count zero. -/
theorem finallyCbCount_eq_zero (evts : List Event)
    (h : Event.finallyCb ∉ evts) : finallyCbCount evts = 0 := by
  unfold finallyCbCount
  rw [List.countP_eq_zero]
  intro e he hp
  cases e with
  | finallyCb => exact h he
  | transportCall a s => simp [Event.isFinallyCb] at hp
  | successCb r => simp [Event.isFinallyCb] at hp
  | errorCb r => simp [Event.isFinallyCb] at hp
  | delayWait d => simp [Event.isFinallyCb] at hp

/-- Behaviour of the loop when every attempt fails (by a transport
rejection, by failing the shape check, or by the TypeError on a null
body): the transport is invoked exactly retries minus attempt times, at
least once, no success callback ever runs, and the loop rejects with the
error of the final attempt. -/
theorem makeRequest_allfail (handler : AjaxHandler) (method url : String)
    (data : List (String × String)) (options : RequestOptions)
    (transport : Nat → TransportResult) (retries delay : Nat)
    (hfail : ∀ n, ∃ e, attemptResult transport n = Except.error e) :
    ∀ (k attempt : Nat), retries - attempt ≤ k →
      transportCount
          (AjaxHandler.makeRequest handler method url data options transport
            retries delay attempt).1 = max (retries - attempt) 1 ∧
      successCbCount
          (AjaxHandler.makeRequest handler method url data options transport
            retries delay attempt).1 = 0 ∧
      (∀ e, attemptResult transport (max retries (attempt + 1)) =
          Except.error e →
        (AjaxHandler.makeRequest handler method url data options transport
          retries delay attempt).2 = Outcome.rejected e) := by
  intro k
  induction k with
  | zero =>
    intro attempt hk
    obtain ⟨e0, hE⟩ := hfail (attempt + 1)
    rw [makeRequest_eq_terminal handler method url data options transport
      retries delay attempt e0 hE (by omega)]
    refine ⟨?_, ?_, ?_⟩
    · cases he : options.error <;>
        simp [he, transportCount, Event.isTransportCall, List.countP_cons] <;>
        omega
    · cases he : options.error <;>
        simp [he, successCbCount, Event.isSuccessCb, List.countP_cons]
    · intro e hE2
      have hmax : max retries (attempt + 1) = attempt + 1 := by omega
      rw [hmax] at hE2
      have hsame := hE.symm.trans hE2
      injection hsame with hsame
      rw [hsame]
  | succ k ih =>
    intro attempt hk
    obtain ⟨e0, hE⟩ := hfail (attempt + 1)
    by_cases hr : attempt + 1 < retries
    · rw [makeRequest_eq_retry handler method url data options transport
        retries delay attempt e0 hE hr]
      obtain ⟨ih1, ih2, ih3⟩ := ih (attempt + 1) (by omega)
      refine ⟨?_, ?_, ?_⟩
      · rw [show (Event.transportCall (attempt + 1)
            (ajaxSettings handler method url data) ::
            Event.delayWait delay ::
            (AjaxHandler.makeRequest handler method url data options transport
              retries delay (attempt + 1)).1) =
            ([Event.transportCall (attempt + 1)
              (ajaxSettings handler method url data),
              Event.delayWait delay] ++
            (AjaxHandler.makeRequest handler method url data options transport
              retries delay (attempt + 1)).1) from rfl]
        rw [transportCount_append, ih1]
        simp [transportCount, Event.isTransportCall, List.countP_cons]
        omega
      · rw [show (Event.transportCall (attempt + 1)
            (ajaxSettings handler method url data) ::
            Event.delayWait delay ::
            (AjaxHandler.makeRequest handler method url data options transport
              retries delay (attempt + 1)).1) =
            ([Event.transportCall (attempt + 1)
              (ajaxSettings handler method url data),
              Event.delayWait delay] ++
            (AjaxHandler.makeRequest handler method url data options transport
              retries delay (attempt + 1)).1) from rfl]
        rw [successCbCount_append, ih2]
        simp [successCbCount, Event.isSuccessCb, List.countP_cons]
      · intro e hE2
        have hmax : max retries (attempt + 1) = max retries (attempt + 2) := by
          omega
        rw [hmax] at hE2
        exact ih3 e hE2
    · rw [makeRequest_eq_terminal handler method url data options transport
        retries delay attempt e0 hE hr]
      refine ⟨?_, ?_, ?_⟩
      · cases he : options.error <;>
          simp [he, transportCount, Event.isTransportCall, List.countP_cons] <;>
          omega
      · cases he : options.error <;>
          simp [he, successCbCount, Event.isSuccessCb, List.countP_cons]
      · intro e hE2
        have hmax : max retries (attempt + 1) = attempt + 1 := by omega
        rw [hmax] at hE2
        have hsame := hE.symm.trans hE2
        injection hsame with hsame
        rw [hsame]

/-- The invariants of the loop lifted to AjaxHandler.request: fixed
settings on every transport invocation, every wait equal to the resolved
delay, the finalizer run exactly once when supplied and never otherwise,
at least one transport exchange, the success callback at most once and
only with a validated response that is also the resolution value. -/
theorem request_inv (handler : AjaxHandler) (method url : String)
    (data : List (String × String)) (options : RequestOptions)
    (transport : Nat → TransportResult) :
    (∀ a s, Event.transportCall a s ∈
        (handler.request method url data options transport).1 →
        s = ajaxSettings handler method url data) ∧
    (∀ d, Event.delayWait d ∈
        (handler.request method url data options transport).1 →
        d = options.delay.getD handler.defaultDelay) ∧
    finallyCbCount (handler.request method url data options transport).1 =
      (if options.finallyCb then 1 else 0) ∧
    1 ≤ transportCount (handler.request method url data options transport).1 ∧
    successCbCount (handler.request method url data options transport).1 ≤ 1 ∧
    (∀ r, Event.successCb r ∈
        (handler.request method url data options transport).1 →
        validateEnvelope r = ValidationResult.ok ∧
        (handler.request method url data options transport).2 =
          Outcome.resolved r) := by
  obtain ⟨i1, i2, i3, i4, i5, i6⟩ :=
    makeRequest_inv handler method url data options transport
      (options.retries.getD handler.defaultRetries)
      (options.delay.getD handler.defaultDelay)
      (options.retries.getD handler.defaultRetries) 0 (by omega)
  refine ⟨?_, ?_, ?_, ?_, ?_, ?_⟩
  · intro a s hmem
    simp only [AjaxHandler.request] at hmem
    rcases List.mem_append.mp hmem with h | h
    · exact i1 a s h
    · cases hf : options.finallyCb <;> simp [hf] at h
  · intro d hmem
    simp only [AjaxHandler.request] at hmem
    rcases List.mem_append.mp hmem with h | h
    · exact i2 d h
    · cases hf : options.finallyCb <;> simp [hf] at h
  · simp only [AjaxHandler.request]
    rw [finallyCbCount_append, finallyCbCount_eq_zero _ i3]
    cases hf : options.finallyCb <;>
      simp [hf, finallyCbCount, Event.isFinallyCb, List.countP_cons]
  · simp only [AjaxHandler.request]
    rw [transportCount_append]
    omega
  · simp only [AjaxHandler.request]
    rw [successCbCount_append]
    have h0 : successCbCount
        (if options.finallyCb then [Event.finallyCb] else []) = 0 := by
      cases hf : options.finallyCb <;>
        simp [hf, successCbCount, Event.isSuccessCb, List.countP_cons]
    omega
  · intro r hmem
    simp only [AjaxHandler.request] at hmem ⊢
    rcases List.mem_append.mp hmem with h | h
    · exact i6 r h
    · cases hf : options.finallyCb <;> simp [hf] at h

/-- The all-failure behaviour lifted to AjaxHandler.request: with the
resolved retry bound N, a persistently failing transport is invoked
exactly max N 1 times, the success callback never runs, and the promise
rejects with the error of the final attempt. -/
theorem request_allfail (handler : AjaxHandler) (method url : String)
    (data : List (String × String)) (options : RequestOptions)
    (transport : Nat → TransportResult)
    (hfail : ∀ n, ∃ e, attemptResult transport n = Except.error e) :
    transportCount (handler.request method url data options transport).1 =
      max (options.retries.getD handler.defaultRetries) 1 ∧
    successCbCount (handler.request method url data options transport).1 = 0 ∧
    (∀ e, attemptResult transport
        (max (options.retries.getD handler.defaultRetries) 1) =
        Except.error e →
      (handler.request method url data options transport).2 =
        Outcome.rejected e) := by
  obtain ⟨a1, a2, a3⟩ :=
    makeRequest_allfail handler method url data options transport
      (options.retries.getD handler.defaultRetries)
      (options.delay.getD handler.defaultDelay) hfail
      (options.retries.getD handler.defaultRetries) 0 (by omega)
  have htail : transportCount
      (if options.finallyCb then [Event.finallyCb] else []) = 0 ∧
      successCbCount
        (if options.finallyCb then [Event.finallyCb] else []) = 0 := by
    cases hf : options.finallyCb <;>
      simp [hf, transportCount, successCbCount, Event.isTransportCall,
        Event.isSuccessCb, List.countP_cons]
  refine ⟨?_, ?_, ?_⟩
  · simp only [AjaxHandler.request]
    rw [transportCount_append, htail.1, a1]
    omega
  · simp only [AjaxHandler.request]
    rw [successCbCount_append, htail.2, a2]
  · intro e hE
    simp only [AjaxHandler.request]
    exact a3 e (by simpa using hE)

/-- Reading a key after one object assignment: the assigned key now maps to
the assigned value and every other key is unchanged. -/
theorem objGet_jsObjectSet (d : List (String × String)) (n v k : String) :
    objGet (jsObjectSet d n v) k = if k = n then some v else objGet d k := by
  unfold jsObjectSet
  by_cases hany : d.any (fun p => p.1 == n)
  · rw [if_pos hany]
    unfold objGet
    rw [List.find?_map]
    have hpf : ((fun p : String × String => p.1 == k) ∘
        (fun p : String × String => if p.1 == n then (p.1, v) else p)) =
        (fun p : String × String => p.1 == k) := by
      funext q
      by_cases hq : q.1 = n <;> simp [hq]
    rw [hpf]
    by_cases hk : k = n
    · subst hk
      obtain ⟨p, hp, hpk⟩ := List.any_eq_true.mp hany
      cases hf : d.find? (fun p => p.1 == k) with
      | none =>
        rw [List.find?_eq_none] at hf
        exact absurd hpk (hf p hp)
      | some q =>
        have hqk := List.find?_some hf
        have hq1 : q.1 = k := by simpa using hqk
        simp [hq1]
    · cases hf : d.find? (fun p => p.1 == k) with
      | none => simp [hf, hk]
      | some q =>
        have hqk := List.find?_some hf
        have hq1 : q.1 = k := by simpa using hqk
        simp [hf, hk, hq1]
  · rw [if_neg hany]
    unfold objGet
    rw [List.find?_append]
    by_cases hk : k = n
    · subst hk
      have hnone : d.find? (fun p : String × String => p.1 == k) = none := by
        rw [List.find?_eq_none]
        intro p hp hpk
        exact hany (List.any_eq_true.mpr ⟨p, hp, hpk⟩)
      rw [hnone]
      simp
    · cases hf : d.find? (fun p => p.1 == k) with
      | none =>
        have hnk : (n == k) = false :=
          beq_eq_false_iff_ne.mpr (fun hnk => hk hnk.symm)
        simp [hf, hnk, hk]
      | some q => simp [hf, hk]

/-- Reading a key from the object built by the serializeForm fold: the last
entry of the form array with that key wins, and keys never written fall
back to the accumulator. -/
theorem serializeForm_foldl (l : List (String × String)) :
    ∀ (acc : List (String × String)) (k : String),
      objGet (l.foldl (fun data item => jsObjectSet data item.1 item.2) acc) k =
        (match l.reverse.find? (fun p => p.1 == k) with
          | some p => some p.2
          | none => objGet acc k) := by
  induction l with
  | nil => intro acc k; simp
  | cons item t ihl =>
    intro acc k
    simp only [List.foldl_cons]
    rw [ihl]
    simp only [List.reverse_cons]
    rw [List.find?_append]
    cases hf : t.reverse.find? (fun p => p.1 == k) with
    | some p => simp
    | none =>
      simp only [Option.none_or]
      rw [objGet_jsObjectSet]
      by_cases hk : k = item.1
      · subst hk
        simp
      · have hik : (item.1 == k) = false :=
          beq_eq_false_iff_ne.mpr (fun hik => hk hik.symm)
        simp [hik, hk]

/-- C1 counterexample: with a configured retry bound of zero and a
transport that fails on every attempt, the underlying transport is still
invoked once, not zero times, because the loop always runs a first attempt
before consulting the bound. -/
theorem request_zero_retries_still_calls_once :
    transportCount
        ((AjaxHandler.create {} "").request "GET" "/u" []
          { retries := some 0 } (fun _ => TransportResult.network)).1 = 1 ∧
    ¬ transportCount
        ((AjaxHandler.create {} "").request "GET" "/u" []
          { retries := some 0 } (fun _ => TransportResult.network)).1 = 0 := by
  have h := (request_allfail (AjaxHandler.create {} "") "GET" "/u" []
    { retries := some 0 } (fun _ => TransportResult.network)
    (fun n => ⟨RejectReason.network, rfl⟩)).1
  have h1 : transportCount
      ((AjaxHandler.create {} "").request "GET" "/u" []
        { retries := some 0 } (fun _ => TransportResult.network)).1 = 1 :=
    h.trans rfl
  refine ⟨h1, ?_⟩
  rw [h1]
  decide

/-- C1 (amended): for every configured retry bound N, a request whose
attempts all fail invokes the underlying transport exactly max N 1 times
(the first attempt always runs, so a bound of zero still produces one
invocation) and then rejects with the terminal transport error of the
final attempt; all failure kinds are treated identically, by count only. -/
theorem request_persistent_failure_attempt_count (handler : AjaxHandler)
    (method url : String) (data : List (String × String))
    (options : RequestOptions) (transport : Nat → TransportResult)
    (hfail : ∀ n, ∃ e, attemptResult transport n = Except.error e) :
    transportCount (handler.request method url data options transport).1 =
      max (options.retries.getD handler.defaultRetries) 1 ∧
    (∀ e, attemptResult transport
        (max (options.retries.getD handler.defaultRetries) 1) =
        Except.error e →
      (handler.request method url data options transport).2 =
        Outcome.rejected e) := by
  obtain ⟨h1, h2, h3⟩ :=
    request_allfail handler method url data options transport hfail
  exact ⟨h1, h3⟩

/-- C1 witness: the default three-attempt configuration against an always
failing transport makes exactly three transport invocations and rejects
with the network error. -/
theorem request_persistent_failure_attempt_count_witness :
    transportCount
        ((AjaxHandler.create {} "").request "GET" "/u" [] {}
          (fun _ => TransportResult.network)).1 = 3 ∧
    ((AjaxHandler.create {} "").request "GET" "/u" [] {}
        (fun _ => TransportResult.network)).2 =
      Outcome.rejected RejectReason.network := by
  have h := request_persistent_failure_attempt_count (AjaxHandler.create {} "")
    "GET" "/u" [] {} (fun _ => TransportResult.network)
    (fun n => ⟨RejectReason.network, rfl⟩)
  exact ⟨h.1.trans rfl, h.2 RejectReason.network rfl⟩

/-- C2 counterexample: a response body whose success field is defined but
not boolean, here the number one, passes the validation of line 92, so the
request resolves with it and the per-call success callback receives it,
contradicting the claim that a body lacking a boolean success field is
always treated as a malformed envelope. -/
theorem nonboolean_success_accepted :
    validateEnvelope (JsVal.obj [("success", JsVal.num 1)]) =
      ValidationResult.ok ∧
    ((AjaxHandler.create {} "").request "GET" "/u" [] { success := true }
        (fun _ => TransportResult.body (JsVal.obj [("success", JsVal.num 1)]))).2 =
      Outcome.resolved (JsVal.obj [("success", JsVal.num 1)]) ∧
    Event.successCb (JsVal.obj [("success", JsVal.num 1)]) ∈
      ((AjaxHandler.create {} "").request "GET" "/u" [] { success := true }
        (fun _ => TransportResult.body (JsVal.obj [("success", JsVal.num 1)]))).1 := by
  have hE : attemptResult
      (fun _ => TransportResult.body (JsVal.obj [("success", JsVal.num 1)]))
      (0 + 1) = Except.ok (JsVal.obj [("success", JsVal.num 1)]) := rfl
  have hcore := makeRequest_eq_ok (AjaxHandler.create {} "") "GET" "/u" []
    { success := true }
    (fun _ => TransportResult.body (JsVal.obj [("success", JsVal.num 1)]))
    (({ success := true } : RequestOptions).retries.getD
      (AjaxHandler.create {} "").defaultRetries)
    (({ success := true } : RequestOptions).delay.getD
      (AjaxHandler.create {} "").defaultDelay)
    0 (JsVal.obj [("success", JsVal.num 1)]) hE
  refine ⟨rfl, ?_, ?_⟩
  · simp only [AjaxHandler.request]
    rw [hcore]
  · simp only [AjaxHandler.request]
    rw [hcore]
    simp

/-- C2 (amended): a response body that is not an object, or whose success
field is undefined, never reaches the success callback: every attempt on
it fails and is retried up to the bound, and the request rejects with the
invalid json reason for a body failing the shape check, or with the
TypeError thrown by the success read for a null body. A body whose success
field is defined but not boolean is instead accepted as a validated
response. -/
theorem request_malformed_envelope_retried (handler : AjaxHandler)
    (method url : String) (data : List (String × String))
    (options : RequestOptions) (transport : Nat → TransportResult) (r : JsVal)
    (hbody : ∀ n, transport n = TransportResult.body r)
    (hval : validateEnvelope r ≠ ValidationResult.ok) :
    successCbCount (handler.request method url data options transport).1 = 0 ∧
    transportCount (handler.request method url data options transport).1 =
      max (options.retries.getD handler.defaultRetries) 1 ∧
    (validateEnvelope r = ValidationResult.malformed →
      (handler.request method url data options transport).2 =
        Outcome.rejected RejectReason.invalidJson) ∧
    (validateEnvelope r = ValidationResult.throws →
      (handler.request method url data options transport).2 =
        Outcome.rejected RejectReason.typeError) := by
  cases hv : validateEnvelope r with
  | ok => exact absurd hv hval
  | malformed =>
    have hfail : ∀ n, ∃ e, attemptResult transport n = Except.error e :=
      fun n => ⟨RejectReason.invalidJson, by simp [attemptResult, hbody n, hv]⟩
    obtain ⟨a1, a2, a3⟩ :=
      request_allfail handler method url data options transport hfail
    refine ⟨a2, a1, fun _ =>
      a3 RejectReason.invalidJson (by simp [attemptResult, hbody _, hv]),
      fun hth => ?_⟩
    simp at hth
  | throws =>
    have hfail : ∀ n, ∃ e, attemptResult transport n = Except.error e :=
      fun n => ⟨RejectReason.typeError, by simp [attemptResult, hbody n, hv]⟩
    obtain ⟨a1, a2, a3⟩ :=
      request_allfail handler method url data options transport hfail
    refine ⟨a2, a1, fun hm => ?_, fun _ =>
      a3 RejectReason.typeError (by simp [attemptResult, hbody _, hv])⟩
    simp at hm

/-- C2 witness: a plain string body is retried three times under the
default configuration, never invokes the success callback, and the request
rejects with the invalid json reason. -/
theorem request_malformed_envelope_retried_witness :
    successCbCount
        ((AjaxHandler.create {} "").request "GET" "/u" [] {}
          (fun _ => TransportResult.body (JsVal.str "oops"))).1 = 0 ∧
    transportCount
        ((AjaxHandler.create {} "").request "GET" "/u" [] {}
          (fun _ => TransportResult.body (JsVal.str "oops"))).1 = 3 ∧
    ((AjaxHandler.create {} "").request "GET" "/u" [] {}
        (fun _ => TransportResult.body (JsVal.str "oops"))).2 =
      Outcome.rejected RejectReason.invalidJson := by
  have h := request_malformed_envelope_retried (AjaxHandler.create {} "")
    "GET" "/u" [] {} (fun _ => TransportResult.body (JsVal.str "oops"))
    (JsVal.str "oops") (fun n => rfl) (by decide)
  exact ⟨h.1, h.2.1.trans rfl, h.2.2.1 (by decide)⟩

/-- C3: when the per-call finalizer is supplied, it runs exactly once per
request call, whatever the transport does and however the call settles. -/
theorem request_finalizer_exactly_once (handler : AjaxHandler)
    (method url : String) (data : List (String × String))
    (options : RequestOptions) (transport : Nat → TransportResult)
    (hfin : options.finallyCb = true) :
    finallyCbCount (handler.request method url data options transport).1 = 1 := by
  have h := (request_inv handler method url data options transport).2.2.1
  rw [hfin] at h
  simpa using h

/-- C3 witness: a request with a finalizer against an always failing
transport runs the finalizer exactly once. -/
theorem request_finalizer_exactly_once_witness :
    finallyCbCount
        ((AjaxHandler.create {} "").request "GET" "/u" []
          { finallyCb := true } (fun _ => TransportResult.network)).1 = 1 :=
  request_finalizer_exactly_once (AjaxHandler.create {} "") "GET" "/u" []
    { finallyCb := true } (fun _ => TransportResult.network) rfl

/-- C4: a well-formed envelope whose success field is the boolean false is
not retried: the transport is invoked exactly once, the per-call success
callback receives the envelope, and the request resolves with it. -/
theorem request_semantic_failure_single_exchange (handler : AjaxHandler)
    (method url : String) (data : List (String × String))
    (options : RequestOptions) (transport : Nat → TransportResult)
    (fields : List (String × JsVal))
    (hb : transport 1 = TransportResult.body (JsVal.obj fields))
    (hsucc : fieldVal (JsVal.obj fields) "success" = JsVal.bool false)
    (hcb : options.success = true) :
    transportCount (handler.request method url data options transport).1 = 1 ∧
    Event.successCb (JsVal.obj fields) ∈
      (handler.request method url data options transport).1 ∧
    (handler.request method url data options transport).2 =
      Outcome.resolved (JsVal.obj fields) := by
  have hE : attemptResult transport (0 + 1) =
      Except.ok (JsVal.obj fields) := by
    simp [attemptResult, hb, validateEnvelope, jsTypeof, hsucc]
  have hcore := makeRequest_eq_ok handler method url data options transport
    (options.retries.getD handler.defaultRetries)
    (options.delay.getD handler.defaultDelay) 0 (JsVal.obj fields) hE
  refine ⟨?_, ?_, ?_⟩
  · simp only [AjaxHandler.request]
    rw [hcore]
    cases hf : options.finallyCb <;>
      simp [hf, hcb, transportCount_append, transportCount,
        Event.isTransportCall, List.countP_cons]
  · simp only [AjaxHandler.request]
    rw [hcore]
    simp [hcb]
  · simp only [AjaxHandler.request]
    rw [hcore]

/-- C4 witness: a concrete envelope with success false resolves after one
transport exchange and is delivered to the success callback. -/
theorem request_semantic_failure_single_exchange_witness :
    transportCount
        ((AjaxHandler.create {} "").request "POST" "/s" [] { success := true }
          (fun _ => TransportResult.body
            (JsVal.obj [("success", JsVal.bool false)]))).1 = 1 ∧
    Event.successCb (JsVal.obj [("success", JsVal.bool false)]) ∈
      ((AjaxHandler.create {} "").request "POST" "/s" [] { success := true }
        (fun _ => TransportResult.body
          (JsVal.obj [("success", JsVal.bool false)]))).1 ∧
    ((AjaxHandler.create {} "").request "POST" "/s" [] { success := true }
        (fun _ => TransportResult.body
          (JsVal.obj [("success", JsVal.bool false)]))).2 =
      Outcome.resolved (JsVal.obj [("success", JsVal.bool false)]) :=
  request_semantic_failure_single_exchange (AjaxHandler.create {} "")
    "POST" "/s" [] { success := true }
    (fun _ => TransportResult.body (JsVal.obj [("success", JsVal.bool false)]))
    [("success", JsVal.bool false)] rfl rfl rfl

/-- C5 counterexample: calling toast on a page without a notification
container creates no container at all, the container count stays zero,
contradicting the claim that toast itself lazily creates one. -/
theorem toast_does_not_create_container :
    (UIHelper.toast "hello" "info"
        { containers := 0, toasts := [], targetHtml := "",
          targetLoading := false, submitDisabled := false }).containers = 0 ∧
    ¬ (UIHelper.toast "hello" "info"
        { containers := 0, toasts := [], targetHtml := "",
          targetLoading := false, submitDisabled := false }).containers = 1 := by
  decide

/-- C5 (amended): toast never creates the notification container, it only
appends to an existing one, leaving the container count unchanged; the
container is instead created by the page-ready handler, which makes
exactly one container when none exists and is idempotent, so the container
count is one after page ready and stays one across any number of toast
calls. -/
theorem toast_container_lifecycle :
    (∀ (st : PageState) (message type : String),
        (UIHelper.toast message type st).containers = st.containers) ∧
    (∀ st : PageState,
        (readyToastContainerInit st).containers = max 1 st.containers) ∧
    (∀ st : PageState,
        readyToastContainerInit (readyToastContainerInit st) =
          readyToastContainerInit st) := by
  refine ⟨?_, ?_, ?_⟩
  · intro st message type
    unfold UIHelper.toast
    by_cases h : st.containers = 0 <;> simp [h]
  · intro st
    unfold readyToastContainerInit
    by_cases h : st.containers = 0
    · simp [h]
    · simp [h]
      omega
  · intro st
    unfold readyToastContainerInit
    by_cases h : st.containers = 0 <;> simp [h]

/-- C6: serializeForm builds a flat name to value mapping in which the
last form entry with a given name wins, and in particular two fields named
tag with values a then b serialize to the single pair tag b. -/
theorem serializeForm_last_wins :
    (∀ (formArray : List (String × String)) (k : String),
        objGet (UIHelper.serializeForm formArray) k =
          (formArray.reverse.find? (fun p => p.1 == k)).map (fun p => p.2)) ∧
    UIHelper.serializeForm [("tag", "a"), ("tag", "b")] = [("tag", "b")] := by
  constructor
  · intro formArray k
    unfold UIHelper.serializeForm
    rw [serializeForm_foldl]
    cases hf : formArray.reverse.find? (fun p => p.1 == k) with
    | some p => simp
    | none => simp [objGet]
  · decide

/-- C7: when the POST trigger fires and the server answers with a
well-formed envelope carrying success false and the message Invalid, the
binder toasts Invalid with the error colour, re-enables the submit button,
hides the loading marker, and leaves the target region content unchanged. -/
theorem post_semantic_failure_ui_effects (ajax : AjaxHandler) (url : String)
    (formArray : List (String × String)) (transport : Nat → TransportResult)
    (st : PageState)
    (henv : transport 1 = TransportResult.body
      (JsVal.obj [("success", JsVal.bool false), ("message", JsVal.str "Invalid")]))
    (hcont : ¬ st.containers = 0) :
    postSubmitHandler ajax url formArray transport st =
      { st with
          toasts := st.toasts ++ [("Invalid", "bg-danger")],
          targetLoading := false,
          submitDisabled := false } := by
  have hE : attemptResult transport (0 + 1) = Except.ok
      (JsVal.obj [("success", JsVal.bool false), ("message", JsVal.str "Invalid")]) := by
    simp [attemptResult, henv, validateEnvelope, jsTypeof, fieldVal]
  have hcore := makeRequest_eq_ok ajax "POST" url
    (UIHelper.serializeForm formArray) postOptions transport
    (postOptions.retries.getD ajax.defaultRetries)
    (postOptions.delay.getD ajax.defaultDelay) 0
    (JsVal.obj [("success", JsVal.bool false), ("message", JsVal.str "Invalid")]) hE
  unfold postSubmitHandler
  simp only [AjaxHandler.post, AjaxHandler.request]
  rw [hcore]
  simp [postOptions, applyPostEvent, postSuccessCallback, postFinallyCallback,
    UIHelper.showLoading, UIHelper.disableButton, UIHelper.hideLoading,
    UIHelper.enableButton, UIHelper.toast, truthy, fieldVal, jsDisplayString,
    toastColors, hcont]

/-- C7 witness: a concrete page with one container, content x in the
target region and the button enabled, ends with one error toast reading
Invalid, the loading marker off, the button re-enabled, and the target
still holding x. -/
theorem post_semantic_failure_ui_effects_witness :
    postSubmitHandler (AjaxHandler.create {} "") "/s" [("f", "1")]
        (fun _ => TransportResult.body
          (JsVal.obj [("success", JsVal.bool false), ("message", JsVal.str "Invalid")]))
        { containers := 1, toasts := [], targetHtml := "x",
          targetLoading := false, submitDisabled := false } =
      { containers := 1, toasts := [("Invalid", "bg-danger")],
        targetHtml := "x", targetLoading := false, submitDisabled := false } :=
  post_semantic_failure_ui_effects (AjaxHandler.create {} "") "/s" [("f", "1")]
    (fun _ => TransportResult.body
      (JsVal.obj [("success", JsVal.bool false), ("message", JsVal.str "Invalid")]))
    { containers := 1, toasts := [], targetHtml := "x",
      targetLoading := false, submitDisabled := false }
    rfl (by decide)

/-- C8: every transport invocation of every request issued by an instance
carries the security token header extracted from the cookie store at
construction, whatever that cookie store holds, so the header value is the
same on every attempt of every request of the instance; moreover, when no
cookie piece starts with the csrftoken name the token is the empty string,
and in every case the request is still sent. -/
theorem request_csrf_header_constant (options : AjaxHandlerOptions)
    (decodedCookie : String) (method url : String)
    (data : List (String × String)) (copts : RequestOptions)
    (transport : Nat → TransportResult) :
    (∀ a s, Event.transportCall a s ∈
        ((AjaxHandler.create options decodedCookie).request method url data
          copts transport).1 →
        s.csrfHeader = AjaxHandler.getCsrfToken decodedCookie) ∧
    1 ≤ transportCount
        ((AjaxHandler.create options decodedCookie).request method url data
          copts transport).1 ∧
    ((splitOnChar ';' decodedCookie.toList).all
        (fun c => !listStartsWith "csrftoken=".toList (jsTrim c)) = true →
      AjaxHandler.getCsrfToken decodedCookie = "") := by
  have hinv := request_inv (AjaxHandler.create options decodedCookie) method
    url data copts transport
  refine ⟨?_, hinv.2.2.2.1, ?_⟩
  · intro a s hmem
    have hs := hinv.1 a s hmem
    rw [hs]
    simp [ajaxSettings, AjaxHandler.create]
  · intro hnone
    have hfind : (splitOnChar ';' decodedCookie.toList).find?
        (fun c => listStartsWith "csrftoken=".toList (jsTrim c)) = none := by
      rw [List.find?_eq_none]
      intro c hc
      have hall := List.all_eq_true.mp hnone c hc
      simpa using hall
    unfold AjaxHandler.getCsrfToken
    dsimp only
    rw [hfind]

/-- C8 witness: the settings of the first transport invocation of a
request issued from a cookie store holding a real token carry that token
in the header, a store with only unrelated cookies yields the empty token,
and the request is still issued at least once. -/
theorem request_csrf_header_constant_witness :
    (ajaxSettings (AjaxHandler.create {} "a=1; csrftoken=tok; b=2") "GET"
        "/u" []).csrfHeader = "tok" ∧
    AjaxHandler.getCsrfToken "a=1; b=2" = "" ∧
    1 ≤ transportCount
        ((AjaxHandler.create {} "a=1; b=2").request "GET" "/u" [] {}
          (fun _ => TransportResult.network)).1 := by
  have htok := request_csrf_header_constant {} "a=1; csrftoken=tok; b=2"
    "GET" "/u" [] {} (fun _ => TransportResult.network)
  have hempty := request_csrf_header_constant {} "a=1; b=2" "GET" "/u" [] {}
    (fun _ => TransportResult.network)
  have hmem : Event.transportCall 1
      (ajaxSettings (AjaxHandler.create {} "a=1; csrftoken=tok; b=2") "GET"
        "/u" []) ∈
      ((AjaxHandler.create {} "a=1; csrftoken=tok; b=2").request "GET" "/u"
        [] {} (fun _ => TransportResult.network)).1 := by
    simp [AjaxHandler.request, AjaxHandler.makeRequest, attemptResult,
      AjaxHandler.create, ajaxSettings]
  exact ⟨(htok.1 1 _ hmem).trans (by decide), hempty.2.2 (by decide),
    hempty.2.1⟩

/-- C9: the defaults are three total attempts and a five hundred
millisecond delay, and every inter-attempt wait of any request equals the
resolved per-call delay, with no backoff growth. -/
theorem request_fixed_delay_and_defaults :
    (∀ cookie : String,
        (AjaxHandler.create {} cookie).defaultRetries = 3 ∧
        (AjaxHandler.create {} cookie).defaultDelay = 500) ∧
    (∀ (handler : AjaxHandler) (method url : String)
        (data : List (String × String)) (options : RequestOptions)
        (transport : Nat → TransportResult) (d : Nat),
        Event.delayWait d ∈
          (handler.request method url data options transport).1 →
        d = options.delay.getD handler.defaultDelay) := by
  constructor
  · intro cookie
    exact ⟨rfl, rfl⟩
  · intro handler method url data options transport d hmem
    exact (request_inv handler method url data options transport).2.1 d hmem

/-- C10: for every request call the per-call success callback runs at most
once, and any response it receives passed the envelope validation and is
the value the request resolves with, so it is never invoked on a failing
or malformed attempt. -/
theorem request_success_callback_at_most_once (handler : AjaxHandler)
    (method url : String) (data : List (String × String))
    (options : RequestOptions) (transport : Nat → TransportResult) :
    successCbCount (handler.request method url data options transport).1 ≤ 1 ∧
    (∀ r, Event.successCb r ∈
        (handler.request method url data options transport).1 →
        validateEnvelope r = ValidationResult.ok ∧
        (handler.request method url data options transport).2 =
          Outcome.resolved r) := by
  have h := request_inv handler method url data options transport
  exact ⟨h.2.2.2.2.1, h.2.2.2.2.2⟩
